import Mathlib

/-!
A verification development for the `loof` process/open-file introspector
(an `lsof` replacement).  The definitions below are a shallow embedding of
the program's data model, filter engine, output formatter, CLI
preprocessor and pipeline driver, translated from the Rust sources
(`src/model/*.rs`, `src/filter.rs`, `src/output.rs`, `src/cli.rs`,
`src/main.rs`, `src/platform/linux.rs`).

Conventions of the embedding:
* Rust `String`/`&str` values are modelled by Lean `String`
  (character granularity; on ASCII data one character is one byte, which
  matches all the string constants the program manipulates).
* Machine integers (`u16`, `u32`, `u64`) are modelled by `Nat`; where the
  source can overflow (`u64` multiplication in the size filter) the result
  is reduced `% 2^64`, and where the source's `parse` can fail on
  out-of-range numerals the embedded parser enforces the same bound.
* Filesystem and kernel state consulted by `list_open_files` is passed in
  explicitly as a `ProcFsEnv` value (the results the system calls would
  return); the pure record-building logic is translated verbatim.
* Rust field names `include`/`exclude` are rendered `incl`/`excl`
  (`include` is a Lean keyword).
-/

namespace Loof

/-- Rust `char::is_whitespace`: the Unicode `White_Space` set, written
out as explicit character tests — `\t`, `\n`, VT, FF, `\r`, space,
NEL, NBSP, OGHAM SPACE MARK, the EN-QUAD..HAIR-SPACE block, LINE and
PARAGRAPH SEPARATOR, NARROW NBSP, MMSP, and IDEOGRAPHIC SPACE.  (Lean's
own `Char.isWhitespace` is narrower: it omits VT and FF, which Rust's
`str::trim` does strip.) -/
def rustIsWhitespace (c : Char) : Bool :=
  c = ('\t') || c = ('\n') || c = ('\x0B') || c = ('\x0C') || c = ('\r')
  || c = ' ' || c = ('\u0085') || c = ('\u00A0') || c = ('\u1680')
  || c = ('\u2000') || c = ('\u2001') || c = ('\u2002') || c = ('\u2003')
  || c = ('\u2004') || c = ('\u2005') || c = ('\u2006') || c = ('\u2007')
  || c = ('\u2008') || c = ('\u2009') || c = ('\u200A')
  || c = ('\u2028') || c = ('\u2029') || c = ('\u202F') || c = ('\u205F')
  || c = ('\u3000')

/-- Character-list model of Rust's `str::trim_end`. -/
def dropTrailingWs (l : List Char) : List Char :=
  (l.reverse.dropWhile rustIsWhitespace).reverse

/-- `str::trim`: remove leading and trailing whitespace (Rust
`char::is_whitespace`). -/
def trimChars (l : List Char) : List Char :=
  dropTrailingWs (l.dropWhile rustIsWhitespace)

/-- `needle` occurs as a contiguous sublist of `hay`. -/
def subSeqAt : List Char → List Char → Bool
  | needle, [] => needle.isEmpty
  | needle, c :: t => needle.isPrefixOf (c :: t) || subSeqAt needle t

/-- Rust `str::contains(needle)`: `needle` occurs as a contiguous
substring of the haystack. -/
def strContains (hay needle : String) : Bool :=
  subSeqAt needle.data hay.data

/-- Rust `str::starts_with(p)`. -/
def strStarts (s p : String) : Bool :=
  p.data.isPrefixOf s.data

/-- Rust `str::ends_with(p)`. -/
def strEnds (s p : String) : Bool :=
  p.data.isSuffixOf s.data

/-- Rust `str::to_uppercase` restricted to ASCII (the protocol and
suffix strings the program uppercases are ASCII). -/
def strUpper (s : String) : String :=
  ⟨s.data.map Char.toUpper⟩

/-- Numeric value of a decimal digit string (most significant first). -/
def digitsVal (l : List Char) : Nat :=
  l.foldl (fun a c => a * 10 + (c.toNat - ('0').toNat)) 0

/-- Strip the optional leading `+` sign accepted by Rust's unsigned
`FromStr`. -/
def stripPlus (l : List Char) : List Char :=
  match l with
  | c :: rest => if c = '+' then rest else c :: rest
  | [] => []

/-- Rust `str::parse::<uN>()` for an unsigned type whose values are
`< bound`: an optional leading `+` sign, then one or more ASCII digits,
rejecting the empty string and out-of-range values. -/
def parseUnsigned (bound : Nat) (l : List Char) : Option Nat :=
  let digits := stripPlus l
  if digits = [] then none
  else if digits.all Char.isDigit then
    if digitsVal digits < bound then some (digitsVal digits) else none
  else none

/-- `u64::from_str`. -/
def parseU64 (l : List Char) : Option Nat := parseUnsigned (2 ^ 64) l

/-- `u16::from_str`. -/
def parseU16 (l : List Char) : Option Nat := parseUnsigned (2 ^ 16) l

-- ---------------------------------------------------------------------------
-- Domain model (src/model/open_file.rs, src/model/process.rs,
-- src/model/network.rs)
-- ---------------------------------------------------------------------------

/-- `FdMode` (src/model/open_file.rs). -/
inductive FdMode where
  | Read
  | Write
  | ReadWrite
  | Unknown
deriving DecidableEq, Repr

/-- `FileType` (src/model/open_file.rs). -/
inductive FileType where
  | Reg
  | Dir
  | Chr
  | Blk
  | Fifo
  | Sock
  | Link
  | Pipe
  | IPv4
  | IPv6
  | Unix
  | Kqueue
  | Systm
  | Unknown (label : String)
deriving DecidableEq, Repr

/-- `FdType` (src/model/open_file.rs). -/
inductive FdType where
  | Cwd
  | Txt
  | Mem
  | Rtd
  | Mmap
  | Numbered (n : Nat) (mode : FdMode)
deriving DecidableEq, Repr

/-- `impl Display for FdMode`. -/
def FdMode.display : FdMode → String
  | .Read => "r"
  | .Write => "w"
  | .ReadWrite => "u"
  | .Unknown => " "

/-- `impl Display for FileType`. -/
def FileType.display : FileType → String
  | .Reg => "REG"
  | .Dir => "DIR"
  | .Chr => "CHR"
  | .Blk => "BLK"
  | .Fifo => "FIFO"
  | .Sock => "SOCK"
  | .Link => "LINK"
  | .Pipe => "PIPE"
  | .IPv4 => "IPv4"
  | .IPv6 => "IPv6"
  | .Unix => "unix"
  | .Kqueue => "KQUEUE"
  | .Systm => "SYSTM"
  | .Unknown s => s

/-- `impl Display for FdType`. -/
def FdType.display : FdType → String
  | .Cwd => "cwd"
  | .Txt => "txt"
  | .Mem => "mem"
  | .Rtd => "rtd"
  | .Mmap => "mmap"
  | .Numbered n mode => Nat.repr n ++ mode.display

/-- `OpenFileInfo` (src/model/open_file.rs). -/
structure OpenFileInfo where
  fd : FdType
  fileType : FileType
  device : String
  sizeOff : Option Nat
  node : String
  name : String
  mode : Option FdMode
  linkTarget : Option String
  sendQueue : Option Nat
  recvQueue : Option Nat
deriving DecidableEq, Repr

/-- `ProcessInfo` (src/model/process.rs). -/
structure ProcessInfo where
  pid : Nat
  ppid : Option Nat
  pgid : Option Nat
  command : String
  comm : String
  user : String
  uid : Nat
  openFiles : List OpenFileInfo
deriving DecidableEq, Repr

/-- `Protocol` (src/model/network.rs). -/
inductive Protocol where
  | Tcp
  | Tcp6
  | Udp
  | Udp6
  | Unix
deriving DecidableEq, Repr

/-- `impl Display for Protocol`. -/
def Protocol.display : Protocol → String
  | .Tcp => "TCP"
  | .Tcp6 => "TCP6"
  | .Udp => "UDP"
  | .Udp6 => "UDP6"
  | .Unix => "unix"

/-- `TcpState` (src/model/network.rs). -/
inductive TcpState where
  | Listen
  | Established
  | CloseWait
  | TimeWait
  | SynSent
  | SynRecv
  | FinWait1
  | FinWait2
  | Closing
  | LastAck
  | Closed
  | Unknown (label : String)
deriving DecidableEq, Repr

/-- `impl Display for TcpState`. -/
def TcpState.display : TcpState → String
  | .Listen => "LISTEN"
  | .Established => "ESTABLISHED"
  | .CloseWait => "CLOSE_WAIT"
  | .TimeWait => "TIME_WAIT"
  | .SynSent => "SYN_SENT"
  | .SynRecv => "SYN_RECV"
  | .FinWait1 => "FIN_WAIT1"
  | .FinWait2 => "FIN_WAIT2"
  | .Closing => "CLOSING"
  | .LastAck => "LAST_ACK"
  | .Closed => "CLOSED"
  | .Unknown s => s

-- ---------------------------------------------------------------------------
-- Filter configuration (src/filter.rs)
-- ---------------------------------------------------------------------------

/-- `PidFilter` (include/exclude lists of u32 PIDs). -/
structure PidFilter where
  incl : List Nat
  excl : List Nat
deriving DecidableEq, Repr

/-- `PgidFilter`. -/
structure PgidFilter where
  incl : List Nat
  excl : List Nat
deriving DecidableEq, Repr

/-- `SizeOp`. -/
inductive SizeOp where
  | GreaterThan
  | LessThan
  | Exact
deriving DecidableEq, Repr

/-- `SizeFilter`. -/
structure SizeFilter where
  op : SizeOp
  bytes : Nat
deriving DecidableEq, Repr

/-- `UserFilter`. -/
structure UserFilter where
  incl : List String
  excl : List String
deriving DecidableEq, Repr

/-- `CommandFilter` (prefix match). -/
structure CommandFilter where
  incl : List String
  excl : List String
deriving DecidableEq, Repr

/-- `InetFilter` parsed from a `-i` spec. -/
structure InetFilter where
  protocol : Option String
  host : Option String
  port : Option Nat
  ipVersion : Option Nat
deriving DecidableEq, Repr

/-- `FilterConfig` (paths are modelled by their string form). -/
structure FilterConfig where
  pids : Option PidFilter
  pgids : Option PgidFilter
  users : Option UserFilter
  commands : Option CommandFilter
  inet : Option InetFilter
  dirTree : Option String
  dir : Option String
  names : List String
  andMode : Bool
  sizeFilter : Option SizeFilter
deriving DecidableEq, Repr

/-- `FilterConfig::default()`: no filters, OR mode. -/
def FilterConfig.empty : FilterConfig :=
  ⟨none, none, none, none, none, none, none, [], false, none⟩

-- ---------------------------------------------------------------------------
-- Size-filter parsing (src/filter.rs, `parse_size_filter`)
-- ---------------------------------------------------------------------------

/-- The multiplier table of `parse_size_filter`, applied to the
uppercased suffix: empty = 1, K/KB = 1024, M/MB = 1048576,
G/GB = 1073741824; anything else rejects. -/
def suffixMultiplier (up : List Char) : Option Nat :=
  if up = [] then some 1
  else if up = ['K'] then some 1024
  else if up = ['K', 'B'] then some 1024
  else if up = ['M'] then some 1048576
  else if up = ['M', 'B'] then some 1048576
  else if up = ['G'] then some 1073741824
  else if up = ['G', 'B'] then some 1073741824
  else none

/-- `parse_size_filter` on the character list of the input.  The numeric
part/suffix split (`find` of the first non-ASCII-digit plus `split_at`)
is expressed with `takeWhile`/`dropWhile`, which is the same split.
`base * multiplier` is a `u64` product, hence reduced `% 2^64`. -/
def parseSizeAfterTrim : List Char → Option SizeFilter
  | [] => none
  | c :: tail =>
    let opRest : SizeOp × List Char :=
      if c = '+' then (SizeOp.GreaterThan, tail)
      else if c = '-' then (SizeOp.LessThan, tail)
      else (SizeOp.Exact, c :: tail)
    let rest := trimChars opRest.2
    let numStr := rest.takeWhile Char.isDigit
    let suffix := rest.dropWhile Char.isDigit
    match parseU64 numStr with
    | none => none
    | some base =>
      match suffixMultiplier (suffix.map Char.toUpper) with
      | none => none
      | some mult => some ⟨opRest.1, (base * mult) % 2 ^ 64⟩

/-- Body of `parse_size_filter`: trim, then sign/number/suffix. -/
def parseSizeCore (s0 : List Char) : Option SizeFilter :=
  parseSizeAfterTrim (trimChars s0)

/-- `parse_size_filter` (src/filter.rs). -/
def parse_size_filter (s : String) : Option SizeFilter :=
  parseSizeCore s.data

-- ---------------------------------------------------------------------------
-- Inet-spec parsing (src/filter.rs, `parse_inet_filter`)
-- ---------------------------------------------------------------------------

/-- Final stage of `parse_inet_filter`: an optional `:PORT` suffix (the
source's `starts_with(':')` test).  A remainder that does not parse as
a `u16` leaves `port = none`. -/
def inetPortStage (filt : InetFilter) (remaining : List Char) : InetFilter :=
  match remaining with
  | c :: rest =>
    if c = ':' then
      match parseU16 rest with
      | some p => { filt with port := some p }
      | none => filt
    else filt
  | [] => filt

/-- Host stage of `parse_inet_filter`: an optional `@HOST` part (the
source's `starts_with('@')` test), read up to the next `:`. -/
def inetHostStage (filt : InetFilter) (remaining : List Char) :
    InetFilter × List Char :=
  match remaining with
  | c :: rest =>
    if c = '@' then
      let host := rest.takeWhile (fun c => c ≠ ':')
      let rest2 := rest.dropWhile (fun c => c ≠ ':')
      (if host ≠ [] then { filt with host := some ⟨host⟩ } else filt, rest2)
    else (filt, c :: rest)
  | [] => (filt, [])

/-- Protocol stage of `parse_inet_filter`: the letters before the first
`@` or `:` become the uppercased protocol. -/
def inetProtoStage (filt : InetFilter) (remaining : List Char) :
    InetFilter × List Char :=
  let proto := remaining.takeWhile (fun c => ¬ (c = '@' ∨ c = ':'))
  let rest := remaining.dropWhile (fun c => ¬ (c = '@' ∨ c = ':'))
  (if proto ≠ [] then { filt with protocol := some (strUpper ⟨proto⟩) } else filt,
   rest)

/-- Version stage of `parse_inet_filter`: a leading `4` or `6` digit. -/
def inetVersionStage (filt : InetFilter) (remaining : List Char) :
    InetFilter × List Char :=
  match remaining with
  | c :: rest =>
    if c = '4' ∨ c = '6' then
      ({ filt with ipVersion := some (c.toNat - ('0').toNat) }, rest)
    else (filt, c :: rest)
  | [] => (filt, [])

/-- `parse_inet_filter` (src/filter.rs): grammar
`[46][protocol][@host][:port]`.  Total: always returns an `InetFilter`,
never an error. -/
def parse_inet_filter (s : String) : InetFilter :=
  let filt0 : InetFilter := ⟨none, none, none, none⟩
  if s.data = [] then filt0
  else
    let s1 := inetVersionStage filt0 s.data
    let s2 := inetProtoStage s1.1 s1.2
    let s3 := inetHostStage s2.1 s2.2
    inetPortStage s3.1 s3.2

-- ---------------------------------------------------------------------------
-- Inet filter matching (src/filter.rs, `InetFilter::matches_file`)
-- ---------------------------------------------------------------------------

/-- The network file types accepted by `InetFilter::matches_file`. -/
def isNetworkType : FileType → Bool
  | .IPv4 => true
  | .IPv6 => true
  | .Sock => true
  | .Unix => true
  | _ => false

/-- The ip-version block of `InetFilter::matches_file`: a set version
of 4 (resp. 6) requires the exact type `IPv4` (resp. `IPv6`); any
other set value constrains nothing. -/
def inetVersionOk (ipVersion : Option Nat) (ft : FileType) : Bool :=
  match ipVersion with
  | some ver =>
    if ver = 4 then ft = FileType.IPv4
    else if ver = 6 then ft = FileType.IPv6
    else true
  | none => true

/-- The protocol block of `InetFilter::matches_file`: a set protocol
must occur, case-insensitively, as a substring of the `node` field. -/
def inetProtoOk (protocol : Option String) (node : String) : Bool :=
  match protocol with
  | some proto => strContains (strUpper node) (strUpper proto)
  | none => true

/-- The port block of `InetFilter::matches_file`: `:PORT` must occur
as a substring of the `name` field. -/
def inetPortOk (port : Option Nat) (name : String) : Bool :=
  match port with
  | some port => strContains name (":" ++ Nat.repr port)
  | none => true

/-- The host block of `InetFilter::matches_file`: the host must occur
as a substring of the `name` field. -/
def inetHostOk (host : Option String) (name : String) : Bool :=
  match host with
  | some host => strContains name host
  | none => true

/-- `InetFilter::matches_file`: the early-return chain of the source,
rendered as a conjunction of the same checks in the same order. -/
def InetFilter.matchesFile (filt : InetFilter) (file : OpenFileInfo) : Bool :=
  if ¬ isNetworkType file.fileType then false
  else
    inetVersionOk filt.ipVersion file.fileType
    && inetProtoOk filt.protocol file.node
    && inetPortOk filt.port file.name
    && inetHostOk filt.host file.name

-- ---------------------------------------------------------------------------
-- Directory helpers (src/filter.rs)
-- ---------------------------------------------------------------------------

/-- `file_in_dir_tree`: the name starts with `dir/` (a trailing slash on
`dir` is not doubled) or equals `dir`. -/
def file_in_dir_tree (fileName dir : String) : Bool :=
  let dirPrefix := if strEnds dir "/" then dir else dir ++ "/"
  strStarts fileName dirPrefix || fileName = dir

/-- Drop trailing `/` separators from a character list. -/
def dropTrailingSlash (l : List Char) : List Char :=
  (l.reverse.dropWhile (fun c => c = '/')).reverse

/-- `Path::parent` for the string paths the program compares: the path
up to (excluding) the final component, ignoring trailing slashes;
`none` for the root and the empty path. -/
def rustParent (s : String) : Option String :=
  if s.data = [] then none
  else
    let core := s.data.reverse.dropWhile (fun c => c = '/')
    if core = [] then none
    else
      let rest := (core.dropWhile (fun c => c ≠ '/')).reverse
      match rest with
      | [] => some ""
      | ['/'] => some "/"
      | _ => some ⟨dropTrailingSlash rest⟩

/-- `file_in_dir`: the parent of the name equals `dir` exactly. -/
def file_in_dir (fileName dir : String) : Bool :=
  match rustParent fileName with
  | some parent => parent = dir
  | none => false

-- ---------------------------------------------------------------------------
-- Per-filter checks (src/filter.rs, `FilterConfig::check_*`)
-- ---------------------------------------------------------------------------

/-- `FilterConfig::check_pid`. -/
def checkPid (cfg : FilterConfig) (proc : ProcessInfo) : Bool :=
  match cfg.pids with
  | none => true
  | some f =>
    if f.excl.contains proc.pid then false
    else if f.incl.isEmpty then true
    else f.incl.contains proc.pid

/-- `FilterConfig::check_pgid`: a process without a pgid passes exactly
when the include list is empty. -/
def checkPgid (cfg : FilterConfig) (proc : ProcessInfo) : Bool :=
  match cfg.pgids with
  | none => true
  | some f =>
    match proc.pgid with
    | none => f.incl.isEmpty
    | some pgid =>
      if f.excl.contains pgid then false
      else if f.incl.isEmpty then true
      else f.incl.contains pgid

/-- `FilterConfig::check_user`. -/
def checkUser (cfg : FilterConfig) (proc : ProcessInfo) : Bool :=
  match cfg.users with
  | none => true
  | some f =>
    if f.excl.contains proc.user then false
    else if f.incl.isEmpty then true
    else f.incl.contains proc.user

/-- `FilterConfig::check_command` (prefix matching on `comm`). -/
def checkCommand (cfg : FilterConfig) (proc : ProcessInfo) : Bool :=
  match cfg.commands with
  | none => true
  | some f =>
    if f.excl.any (fun c => strStarts proc.comm c) then false
    else if f.incl.isEmpty then true
    else f.incl.any (fun c => strStarts proc.comm c)

-- ---------------------------------------------------------------------------
-- Filter composition (src/filter.rs, `matches_process` / `matches_file`)
-- ---------------------------------------------------------------------------

/-- Whether any process-level filter is active. -/
def procActive (cfg : FilterConfig) : Bool :=
  cfg.pids.isSome || cfg.pgids.isSome || cfg.users.isSome || cfg.commands.isSome

/-- The verdicts of the *active* process-level filters, in source order. -/
def procResults (cfg : FilterConfig) (proc : ProcessInfo) : List Bool :=
  (if cfg.pids.isSome then [checkPid cfg proc] else [])
  ++ (if cfg.pgids.isSome then [checkPgid cfg proc] else [])
  ++ (if cfg.users.isSome then [checkUser cfg proc] else [])
  ++ (if cfg.commands.isSome then [checkCommand cfg proc] else [])

/-- `FilterConfig::matches_process`: early `true` when no process-level
filter is set; otherwise the sequential AND/OR accumulation over the
active filters, exactly as in the source. -/
def matches_process (cfg : FilterConfig) (proc : ProcessInfo) : Bool :=
  if cfg.pids.isNone && cfg.pgids.isNone && cfg.users.isNone
      && cfg.commands.isNone then
    true
  else
    let pidMatch := checkPid cfg proc
    let pgidMatch := checkPgid cfg proc
    let userMatch := checkUser cfg proc
    let cmdMatch := checkCommand cfg proc
    if cfg.andMode then
      let pass := true
      let pass := if cfg.pids.isSome then pass && pidMatch else pass
      let pass := if cfg.pgids.isSome then pass && pgidMatch else pass
      let pass := if cfg.users.isSome then pass && userMatch else pass
      let pass := if cfg.commands.isSome then pass && cmdMatch else pass
      pass
    else
      let any := false
      let any := if cfg.pids.isSome then any || pidMatch else any
      let any := if cfg.pgids.isSome then any || pgidMatch else any
      let any := if cfg.users.isSome then any || userMatch else any
      let any := if cfg.commands.isSome then any || cmdMatch else any
      any

/-- Whether any file-level filter is active (the activity test used by
`matches_file` itself, which *does* count the size filter). -/
def fileActive (cfg : FilterConfig) : Bool :=
  cfg.inet.isSome || cfg.dirTree.isSome || cfg.dir.isSome
  || !cfg.names.isEmpty || cfg.sizeFilter.isSome

/-- The `results` vector of `matches_file`: one verdict per active
file-level filter, in source order. -/
def fileResults (cfg : FilterConfig) (file : OpenFileInfo) : List Bool :=
  (match cfg.inet with
   | some inet => [inet.matchesFile file]
   | none => [])
  ++ (match cfg.dirTree with
   | some d => [file_in_dir_tree file.name d]
   | none => [])
  ++ (match cfg.dir with
   | some d => [file_in_dir file.name d]
   | none => [])
  ++ (if cfg.names.isEmpty then []
      else [cfg.names.any (fun n => file.name = n)])
  ++ (match cfg.sizeFilter with
   | some sf =>
     [match file.sizeOff with
      | some size =>
        (match sf.op with
         | SizeOp.GreaterThan => decide (size > sf.bytes)
         | SizeOp.LessThan => decide (size < sf.bytes)
         | SizeOp.Exact => decide (size = sf.bytes))
      | none => false]
   | none => [])

/-- `FilterConfig::matches_file`: early `true` when no file-level filter
is set; otherwise fold the `results` vector with all/any per
`and_mode`. -/
def matches_file (cfg : FilterConfig) (file : OpenFileInfo) : Bool :=
  if cfg.inet.isNone && cfg.dirTree.isNone && cfg.dir.isNone
      && cfg.names.isEmpty && cfg.sizeFilter.isNone then
    true
  else
    let results := fileResults cfg file
    if results.isEmpty then true
    else if cfg.andMode then results.all id
    else results.any id

-- ---------------------------------------------------------------------------
-- Output formatter (src/output.rs)
-- ---------------------------------------------------------------------------

/-- `OutputFormatter`. -/
structure OutputFormatter where
  cmdWidth : Nat
  noHostname : Bool
  noPortname : Bool
  listUid : Bool
  showPpid : Bool
  terse : Bool
  fieldOutput : Option String
  tcpInfo : Option String
deriving DecidableEq, Repr

/-- `fit_str` (src/output.rs): truncate to the first `width` characters,
or pad with spaces on the right (Rust `{:<width$}`, left-aligned) to
exactly `width`. -/
def fit_str (s : String) (width : Nat) : String :=
  if s.length > width then ⟨s.data.take width⟩
  else ⟨s.data ++ List.replicate (width - s.length) ' '⟩

/-- `format_size_off` (src/output.rs). -/
def format_size_off : Option Nat → String
  | some s => Nat.repr s
  | none => "0t0"

/-- The process-level lines of `print_field_output` for one field
character.  Note the source's `'g'` arm prints the *pid* (its own
comment calls it a "PGID placeholder"). -/
def fieldProcLines (fmt : OutputFormatter) (proc : ProcessInfo) :
    Char → List String
  | 'p' => ["p" ++ Nat.repr proc.pid]
  | 'c' => ["c" ++ proc.comm]
  | 'u' =>
    if fmt.listUid then ["u" ++ Nat.repr proc.uid]
    else ["u" ++ proc.user]
  | 'R' =>
    match proc.ppid with
    | some ppid => ["R" ++ Nat.repr ppid]
    | none => []
  | 'g' => ["g" ++ Nat.repr proc.pid]
  | _ => []

/-- The file-level lines of `print_field_output` for one field
character applied to one descriptor. -/
def fieldFileLines (file : OpenFileInfo) : Char → List String
  | 'f' => ["f" ++ file.fd.display]
  | 't' => ["t" ++ file.fileType.display]
  | 'D' => ["D" ++ file.device]
  | 's' =>
    match file.sizeOff with
    | some sz => ["s" ++ Nat.repr sz]
    | none => []
  | 'i' => ["i" ++ file.node]
  | 'n' => ["n" ++ file.name]
  | _ => []

/-- `OutputFormatter::print_field_output` (src/output.rs), as the list
of lines it prints: the process-level fields once (in field-string
order), then the file-level fields for each descriptor. -/
def print_field_output (fmt : OutputFormatter) (proc : ProcessInfo) :
    List String :=
  let fields := (fmt.fieldOutput.getD "pcuftn").data
  (fields.flatMap (fieldProcLines fmt proc))
  ++ proc.openFiles.flatMap (fun file => fields.flatMap (fieldFileLines file))

-- ---------------------------------------------------------------------------
-- CLI preprocessor (src/cli.rs, `preprocess_args`)
-- ---------------------------------------------------------------------------

/-- The body loop of `preprocess_args`: rewrite each standalone `+D`,
`+d`, `+c` to its `--long` form, passing the following value token
through unchanged (the iterator consumes it). -/
def preprocessGo : List String → List String
  | [] => []
  | [arg] =>
    if arg = "+D" then ["--dir-tree"]
    else if arg = "+d" then ["--dir"]
    else if arg = "+c" then ["--cmd-width"]
    else [arg]
  | arg :: v :: rest =>
    if arg = "+D" then "--dir-tree" :: v :: preprocessGo rest
    else if arg = "+d" then "--dir" :: v :: preprocessGo rest
    else if arg = "+c" then "--cmd-width" :: v :: preprocessGo rest
    else arg :: preprocessGo (v :: rest)

/-- `preprocess_args` (src/cli.rs): the program name is kept as-is and
the remaining tokens are rewritten by `preprocessGo`. -/
def preprocess_args : List String → List String
  | [] => []
  | prog :: rest => prog :: preprocessGo rest

-- ---------------------------------------------------------------------------
-- Pipeline driver (src/main.rs, `run_once`)
-- ---------------------------------------------------------------------------

/-- The `has_file_filters` condition of `run_once` (src/main.rs:83-86).
Note that, unlike `matches_file`'s own activity check, it does *not*
test `size_filter`. -/
def hasFileFilters (cfg : FilterConfig) : Bool :=
  cfg.inet.isSome || cfg.dirTree.isSome || cfg.dir.isSome
  || !cfg.names.isEmpty

/-- The per-process body of `run_once`'s second loop: populate
`open_files` from the provider (an association list `pid ↦ files`; a
missing pid models a provider error, on which the source `continue`s
without touching the process), then apply the file-level filters when
`has_file_filters` holds. -/
def populateAndFilter (cfg : FilterConfig)
    (table : List (Nat × List OpenFileInfo)) (proc : ProcessInfo) :
    ProcessInfo :=
  match table.lookup proc.pid with
  | none => proc
  | some files =>
    let proc := { proc with openFiles := files }
    if hasFileFilters cfg then
      { proc with openFiles := proc.openFiles.filter (matches_file cfg) }
    else proc

/-- The selection part of `run_once` (src/main.rs): process-level
retain, per-process descriptor population and file-level retain, then
the prune of processes whose descriptor list is empty — the last two
gated on `has_file_filters`.  Returns the process list handed to the
formatter. -/
def run_once_select (cfg : FilterConfig) (procs : List ProcessInfo)
    (table : List (Nat × List OpenFileInfo)) : List ProcessInfo :=
  let procs := procs.filter (matches_process cfg)
  let procs := procs.map (populateAndFilter cfg table)
  if hasFileFilters cfg then
    procs.filter (fun p => !p.openFiles.isEmpty)
  else procs

-- ---------------------------------------------------------------------------
-- Linux provider (src/platform/linux.rs)
-- ---------------------------------------------------------------------------

/-- The file-type bits of a `std::fs::Metadata` (what
`classify_file_type` inspects). -/
structure FsFileType where
  isFile : Bool
  isDir : Bool
  isSymlink : Bool
  isBlockDevice : Bool
  isCharDevice : Bool
  isFifo : Bool
  isSocket : Bool
deriving DecidableEq, Repr

/-- The stat results `open_file_from_*` reads from a `Metadata`. -/
structure Metadata where
  ftype : FsFileType
  dev : Nat
  size : Nat
  ino : Nat
deriving DecidableEq, Repr

/-- `classify_file_type` (src/platform/linux.rs). -/
def classify_file_type (meta : Metadata) : FileType :=
  if meta.ftype.isFile then FileType.Reg
  else if meta.ftype.isDir then FileType.Dir
  else if meta.ftype.isSymlink then FileType.Link
  else if meta.ftype.isBlockDevice then FileType.Blk
  else if meta.ftype.isCharDevice then FileType.Chr
  else if meta.ftype.isFifo then FileType.Fifo
  else if meta.ftype.isSocket then FileType.Sock
  else FileType.Unknown "unknown"

/-- `fd_mode_from_flags`: bottom two bits of the `O_*` flag word. -/
def fd_mode_from_flags (flags : Nat) : FdMode :=
  match flags % 4 with
  | 0 => FdMode.Read
  | 1 => FdMode.Write
  | 2 => FdMode.ReadWrite
  | _ => FdMode.Unknown

/-- `format_device`: `major,minor` in the Linux `u64` dev encoding
(`!0xfff` and `!0xff` are 64-bit complements). -/
def format_device (dev : Nat) : String :=
  let major := ((dev >>> 8) &&& 0xfff) ||| ((dev >>> 32) &&& (2 ^ 64 - 1 - 0xfff))
  let minor := (dev &&& 0xff) ||| ((dev >>> 12) &&& (2 ^ 64 - 1 - 0xff))
  Nat.repr major ++ "," ++ Nat.repr minor

/-- `procfs::process::FDTarget`. -/
inductive FDTarget where
  | Path (p : String)
  | Socket (inode : Nat)
  | Net (inode : Nat)
  | Pipe (inode : Nat)
  | AnonInode (desc : String)
  | MemFD (name : String)
  | Other (name : String) (inode : Nat)
deriving DecidableEq, Repr

/-- One successfully read entry of `/proc/[pid]/fd`: the slot number,
the parsed `flags:` word from fdinfo (`none` when the file or field is
unreadable, which `read_fd_flags` maps to `Unknown`), and the target. -/
structure FdEntry where
  fd : Nat
  flags : Option Nat
  target : FDTarget
deriving DecidableEq, Repr

/-- `SocketNetInfo` (src/platform/linux.rs). -/
structure SocketNetInfo where
  protocol : Protocol
  localAddr : String
  localPort : Nat
  remoteAddr : String
  remotePort : Nat
  state : TcpState
  txQueue : Option Nat
  rxQueue : Option Nat
deriving DecidableEq, Repr

/-- The kernel-provided state a single `list_open_files` call reads:
results of the procfs lookups and stat calls, plus the provider
configuration.  Stat results are association lists keyed by path. -/
structure ProcFsEnv where
  cwd : Option String
  root : Option String
  exe : Option String
  maps : List (Option String)
  socketTable : List (Nat × SocketNetInfo)
  fds : Option (List FdEntry)
  metadataTbl : List (String × Metadata)
  symlinkMetadataTbl : List (String × Metadata)
  readLinkTbl : List (String × String)
  avoidStat : Bool
  followSymlinks : Bool
deriving Repr

/-- `fs::metadata` against the environment. -/
def ProcFsEnv.metadata (env : ProcFsEnv) (path : String) : Option Metadata :=
  env.metadataTbl.lookup path

/-- `fs::symlink_metadata` against the environment. -/
def ProcFsEnv.symlinkMetadata (env : ProcFsEnv) (path : String) :
    Option Metadata :=
  env.symlinkMetadataTbl.lookup path

/-- `fs::read_link(path).ok()` against the environment. -/
def ProcFsEnv.readLink (env : ProcFsEnv) (path : String) : Option String :=
  env.readLinkTbl.lookup path

/-- The stat-derived fields of an `OpenFileInfo`:
(file type, device, size, node, link target). -/
def StatFields : Type :=
  FileType × String × Option Nat × String × Option String

/-- The `Err(_)` fallbacks of `open_file_from_path` /
`open_file_from_fd_path`: unknown type, empty strings, no size. -/
def unknownStatFields : StatFields :=
  (FileType.Unknown "?", "", none, "", none)

/-- The `Ok(meta)` stat fields, with the link target computed by the
caller-specific rule. -/
def okStatFields (meta : Metadata) (lt : Option String) : StatFields :=
  (classify_file_type meta, format_device meta.dev, some meta.size,
   Nat.repr meta.ino, lt)

/-- `open_file_from_path` (cwd/rtd/txt entries).  `mode` is `none` on
every path through the source. -/
def open_file_from_path (env : ProcFsEnv) (path : String) (fdType : FdType) :
    OpenFileInfo :=
  if env.avoidStat then
    { fd := fdType, fileType := FileType.Unknown "", device := "",
      sizeOff := none, node := "", name := path, mode := none,
      linkTarget := none, sendQueue := none, recvQueue := none }
  else
    let fields : StatFields :=
      if env.followSymlinks then
        match env.metadata path with
        | some meta => okStatFields meta none
        | none => unknownStatFields
      else
        match env.symlinkMetadata path with
        | some meta =>
          let ft := classify_file_type meta
          okStatFields meta (if ft = FileType.Link then env.readLink path else none)
        | none => unknownStatFields
    { fd := fdType, fileType := fields.1, device := fields.2.1,
      sizeOff := fields.2.2.1, node := fields.2.2.2.1, name := path,
      mode := none, linkTarget := fields.2.2.2.2, sendQueue := none,
      recvQueue := none }

/-- `open_file_from_fd_path` (numbered descriptors backed by a path).
`fd = Numbered(fd_num, mode)` and `mode = Some(mode)` on every path
through the source. -/
def open_file_from_fd_path (env : ProcFsEnv) (path : String) (fdNum : Nat)
    (mode : FdMode) : OpenFileInfo :=
  if env.avoidStat then
    { fd := FdType.Numbered fdNum mode, fileType := FileType.Unknown "",
      device := "", sizeOff := none, node := "", name := path,
      mode := some mode, linkTarget := none, sendQueue := none,
      recvQueue := none }
  else
    let fields : StatFields :=
      if env.followSymlinks then
        let isSymlink := ((env.symlinkMetadata path).map
          (fun m => m.ftype.isSymlink)).getD false
        if isSymlink then
          match env.metadata path with
          | some meta => okStatFields meta (env.readLink path)
          | none => unknownStatFields
        else
          match env.metadata path with
          | some meta => okStatFields meta none
          | none => unknownStatFields
      else
        match env.metadata path with
        | some meta =>
          let ft := classify_file_type meta
          okStatFields meta (if ft = FileType.Link then env.readLink path else none)
        | none =>
          match env.symlinkMetadata path with
          | some meta => okStatFields meta none
          | none => unknownStatFields
    { fd := FdType.Numbered fdNum mode, fileType := fields.1,
      device := fields.2.1, sizeOff := fields.2.2.1,
      node := fields.2.2.2.1, name := path, mode := some mode,
      linkTarget := fields.2.2.2.2, sendQueue := none, recvQueue := none }

/-- The `mem` entries of `list_open_files`: one record per distinct
file-backed mapped path, deduplicated by the `seen_paths` set. -/
def memEntries (env : ProcFsEnv) :
    List (Option String) → List String → List OpenFileInfo
  | [], _ => []
  | none :: rest, seen => memEntries env rest seen
  | some p :: rest, seen =>
    if seen.contains p then memEntries env rest seen
    else
      let fields : FileType × String × Option Nat × String :=
        match env.metadata p with
        | some meta =>
          (classify_file_type meta, format_device meta.dev,
           some meta.size, Nat.repr meta.ino)
        | none => (FileType.Reg, "", none, "")
      { fd := FdType.Mem, fileType := fields.1, device := fields.2.1,
        sizeOff := fields.2.2.1, node := fields.2.2.2, name := p,
        mode := some FdMode.Read, linkTarget := none, sendQueue := none,
        recvQueue := none } :: memEntries env rest (p :: seen)

/-- `<laddr>:<lport> -> <raddr>:<rport> (<qual>)`. -/
def endpointName (si : SocketNetInfo) (qual : String) : String :=
  si.localAddr ++ ":" ++ Nat.repr si.localPort ++ " -> "
  ++ si.remoteAddr ++ ":" ++ Nat.repr si.remotePort ++ " (" ++ qual ++ ")"

/-- Unix-domain display name: the bound path, or
`unix socket inode=<n>` when unbound. -/
def unixSockName (si : SocketNetInfo) (inode : Nat) : String :=
  if si.localAddr = "" then "unix socket inode=" ++ Nat.repr inode
  else si.localAddr

/-- The `(file_type, name)` pair of the `FDTarget::Socket` hit branch. -/
def socketHitTypeName (si : SocketNetInfo) (inode : Nat) :
    FileType × String :=
  match si.protocol with
  | Protocol.Tcp => (FileType.IPv4, endpointName si si.state.display)
  | Protocol.Tcp6 => (FileType.IPv6, endpointName si si.state.display)
  | Protocol.Udp => (FileType.IPv4, endpointName si "UDP")
  | Protocol.Udp6 => (FileType.IPv6, endpointName si "UDP6")
  | Protocol.Unix => (FileType.Unix, unixSockName si inode)

/-- The `(file_type, name)` pair of the `FDTarget::Net` hit branch
(UDP renders the protocol's Display form). -/
def netHitTypeName (si : SocketNetInfo) (inode : Nat) :
    FileType × String :=
  match si.protocol with
  | Protocol.Tcp => (FileType.IPv4, endpointName si si.state.display)
  | Protocol.Tcp6 => (FileType.IPv6, endpointName si si.state.display)
  | Protocol.Udp => (FileType.IPv4, endpointName si (Protocol.Udp).display)
  | Protocol.Udp6 => (FileType.IPv6, endpointName si (Protocol.Udp6).display)
  | Protocol.Unix => (FileType.Unix, unixSockName si inode)

/-- A socket-table hit record (both `Socket` and `Net` targets). -/
def socketHitRecord (fdNum : Nat) (mode : FdMode) (inode : Nat)
    (si : SocketNetInfo) (tn : FileType × String) : OpenFileInfo :=
  { fd := FdType.Numbered fdNum mode, fileType := tn.1, device := "",
    sizeOff := none, node := Nat.repr inode, name := tn.2,
    mode := some mode, linkTarget := none, sendQueue := si.txQueue,
    recvQueue := si.rxQueue }

/-- A socket-table miss record: `SOCK` with a `label:[inode]` name. -/
def socketMissRecord (fdNum : Nat) (mode : FdMode) (inode : Nat)
    (label : String) : OpenFileInfo :=
  { fd := FdType.Numbered fdNum mode, fileType := FileType.Sock,
    device := "", sizeOff := none, node := Nat.repr inode,
    name := label ++ ":[" ++ Nat.repr inode ++ "]", mode := some mode,
    linkTarget := none, sendQueue := none, recvQueue := none }

/-- The record pushed for one `/proc/[pid]/fd` entry (the body of the
numbered-descriptor loop of `list_open_files`). -/
def fdRecord (env : ProcFsEnv) (e : FdEntry) : OpenFileInfo :=
  let mode := match e.flags with
    | some v => fd_mode_from_flags v
    | none => FdMode.Unknown
  match e.target with
  | FDTarget.Path p => open_file_from_fd_path env p e.fd mode
  | FDTarget.Socket inode =>
    match env.socketTable.lookup inode with
    | some si => socketHitRecord e.fd mode inode si (socketHitTypeName si inode)
    | none => socketMissRecord e.fd mode inode "socket"
  | FDTarget.Net inode =>
    match env.socketTable.lookup inode with
    | some si => socketHitRecord e.fd mode inode si (netHitTypeName si inode)
    | none => socketMissRecord e.fd mode inode "net"
  | FDTarget.Pipe inode =>
    { fd := FdType.Numbered e.fd mode, fileType := FileType.Pipe,
      device := "", sizeOff := none, node := Nat.repr inode,
      name := "pipe:[" ++ Nat.repr inode ++ "]", mode := some mode,
      linkTarget := none, sendQueue := none, recvQueue := none }
  | FDTarget.AnonInode desc =>
    { fd := FdType.Numbered e.fd mode, fileType := FileType.Unknown desc,
      device := "", sizeOff := none, node := "",
      name := "anon_inode:[" ++ desc ++ "]", mode := some mode,
      linkTarget := none, sendQueue := none, recvQueue := none }
  | FDTarget.MemFD nameStr =>
    { fd := FdType.Numbered e.fd mode, fileType := FileType.Reg,
      device := "", sizeOff := none, node := "",
      name := "memfd:" ++ nameStr, mode := some mode,
      linkTarget := none, sendQueue := none, recvQueue := none }
  | FDTarget.Other nameStr inode =>
    { fd := FdType.Numbered e.fd mode, fileType := FileType.Unknown nameStr,
      device := "", sizeOff := none, node := Nat.repr inode,
      name := nameStr ++ ":[" ++ Nat.repr inode ++ "]", mode := some mode,
      linkTarget := none, sendQueue := none, recvQueue := none }

/-- `LinuxProvider::list_open_files` over a `ProcFsEnv`: the special
entries `cwd`, `rtd`, `txt` (each only when its procfs link is
readable), the deduplicated `mem` entries, then one record per readable
numbered descriptor (none at all when `/proc/[pid]/fd` is unreadable,
as in the source's early `return Ok(results)`). -/
def list_open_files (env : ProcFsEnv) : List OpenFileInfo :=
  (match env.cwd with
   | some p => [open_file_from_path env p FdType.Cwd]
   | none => [])
  ++ (match env.root with
   | some p => [open_file_from_path env p FdType.Rtd]
   | none => [])
  ++ (match env.exe with
   | some p => [open_file_from_path env p FdType.Txt]
   | none => [])
  ++ memEntries env env.maps []
  ++ (match env.fds with
   | some fds => fds.map (fdRecord env)
   | none => [])

-- ---------------------------------------------------------------------------
-- Concrete fixtures used by the evaluation theorems
-- ---------------------------------------------------------------------------

/-- A filter configuration whose only supplied filter is the size
predicate `+1000` (greater than 1000 bytes). -/
def sizeOnlyConfig : FilterConfig :=
  { FilterConfig.empty with sizeFilter := some ⟨SizeOp.GreaterThan, 1000⟩ }

/-- A descriptor with no known size (`size_off = None`); the size
predicate never matches it. -/
def sizelessFile : OpenFileInfo :=
  ⟨FdType.Numbered 3 FdMode.Read, FileType.Reg, "8,1", none, "77",
   "/tmp/a.txt", some FdMode.Read, none, none, none⟩

/-- A process (pid 1) with an initially empty descriptor list. -/
def procOne : ProcessInfo :=
  ⟨1, none, none, "bash", "bash", "root", 0, []⟩

/-- A process whose pid (100) differs from its pgid (42), for the
field-output theorem. -/
def procPid100Pgid42 : ProcessInfo :=
  ⟨100, some 1, some 42, "bash", "bash", "root", 0, []⟩

/-- A formatter selecting only the `g` field in `-F` mode. -/
def fmtFieldG : OutputFormatter :=
  ⟨9, false, false, false, false, false, some "g", none⟩

-- ---------------------------------------------------------------------------
-- Theorems
-- ---------------------------------------------------------------------------

/-- **C3.** For each individual include/exclude filter (pid, user,
pgid), a value `v` passes iff `v` is not in the exclude list and the
include list is empty or contains `v`; a process with no pgid passes
the pgid filter iff that filter's include list is empty. -/
theorem check_include_exclude_semantics (cfg : FilterConfig)
    (proc : ProcessInfo) :
    (∀ f, cfg.pids = some f →
      (checkPid cfg proc = true ↔
        proc.pid ∉ f.excl ∧ (f.incl = [] ∨ proc.pid ∈ f.incl)))
  ∧ (∀ f, cfg.users = some f →
      (checkUser cfg proc = true ↔
        proc.user ∉ f.excl ∧ (f.incl = [] ∨ proc.user ∈ f.incl)))
  ∧ (∀ f, cfg.pgids = some f →
      ((∀ g, proc.pgid = some g →
        (checkPgid cfg proc = true ↔
          g ∉ f.excl ∧ (f.incl = [] ∨ g ∈ f.incl)))
      ∧ (proc.pgid = none → (checkPgid cfg proc = true ↔ f.incl = [])))) := by
  refine ⟨?_, ?_, ?_⟩
  · intro f hf
    simp only [checkPid, hf]
    by_cases hex : proc.pid ∈ f.excl
    · simp [hex]
    · by_cases hin : f.incl = [] <;>
        simp [hex, hin, List.isEmpty_iff]
  · intro f hf
    simp only [checkUser, hf]
    by_cases hex : proc.user ∈ f.excl
    · simp [hex]
    · by_cases hin : f.incl = [] <;>
        simp [hex, hin, List.isEmpty_iff]
  · intro f hf
    constructor
    · intro g hg
      simp only [checkPgid, hf, hg]
      by_cases hex : g ∈ f.excl
      · simp [hex]
      · by_cases hin : f.incl = [] <;>
          simp [hex, hin, List.isEmpty_iff]
    · intro hg
      simp [checkPgid, hf, hg, List.isEmpty_iff]

/-- Witness for C3 at a concrete configuration: pid 7 passes an include
list containing it, and a pgid-less process fails a non-empty pgid
include list. -/
theorem check_include_exclude_semantics_witness :
    checkPid
      { FilterConfig.empty with pids := some ⟨[7], [9]⟩ }
      ⟨7, none, none, "x", "x", "u", 0, []⟩ = true := by
  have h := (check_include_exclude_semantics
    { FilterConfig.empty with pids := some ⟨[7], [9]⟩ }
    ⟨7, none, none, "x", "x", "u", 0, []⟩).1 ⟨[7], [9]⟩ rfl
  exact h.mpr (by decide)

/-- `preprocessGo` leaves a token vector without `+`-leading tokens
unchanged. -/
theorem preprocessGo_fixed (l : List String)
    (h : ∀ t ∈ l, strStarts t "+" = false) : preprocessGo l = l := by
  induction l with
  | nil => rfl
  | cons a rest ih =>
    have ha : strStarts a "+" = false := h a (List.mem_cons_self a rest)
    have hrest : ∀ t ∈ rest, strStarts t "+" = false :=
      fun t ht => h t (List.mem_cons_of_mem a ht)
    have hD : a ≠ "+D" := by
      rintro rfl; exact absurd ((by decide : strStarts "+D" "+" = true).symm.trans ha) (by decide)
    have hd : a ≠ "+d" := by
      rintro rfl; exact absurd ((by decide : strStarts "+d" "+" = true).symm.trans ha) (by decide)
    have hc : a ≠ "+c" := by
      rintro rfl; exact absurd ((by decide : strStarts "+c" "+" = true).symm.trans ha) (by decide)
    cases rest with
    | nil => simp only [preprocessGo, if_neg hD, if_neg hd, if_neg hc]
    | cons b rest2 =>
      simp only [preprocessGo, if_neg hD, if_neg hd, if_neg hc]
      rw [ih hrest]

/-- **C9.** `preprocess_args` rewrites each standalone `+D`, `+d`, `+c`
after the program name to `--dir-tree`, `--dir`, `--cmd-width`
respectively, keeping the following value token; it leaves every other
token unchanged in order; and it is idempotent on every argument vector
none of whose tokens begins with `+`. -/
theorem preprocess_args_spec :
    (∀ (prog v : String) (rest : List String),
      preprocess_args (prog :: "+D" :: v :: rest)
        = prog :: "--dir-tree" :: v :: preprocessGo rest)
  ∧ (∀ (prog v : String) (rest : List String),
      preprocess_args (prog :: "+d" :: v :: rest)
        = prog :: "--dir" :: v :: preprocessGo rest)
  ∧ (∀ (prog v : String) (rest : List String),
      preprocess_args (prog :: "+c" :: v :: rest)
        = prog :: "--cmd-width" :: v :: preprocessGo rest)
  ∧ (∀ (prog arg : String) (rest : List String),
      arg ≠ "+D" → arg ≠ "+d" → arg ≠ "+c" →
      preprocess_args (prog :: arg :: rest)
        = prog :: arg :: preprocessGo rest)
  ∧ (∀ args : List String,
      (∀ t ∈ args, strStarts t "+" = false) →
      preprocess_args (preprocess_args args) = preprocess_args args) := by
  refine ⟨?_, ?_, ?_, ?_, ?_⟩
  · intro prog v rest; simp [preprocess_args, preprocessGo]
  · intro prog v rest; simp [preprocess_args, preprocessGo]
  · intro prog v rest; simp [preprocess_args, preprocessGo]
  · intro prog arg rest hD hd hc
    cases rest with
    | nil => simp only [preprocess_args, preprocessGo, if_neg hD, if_neg hd, if_neg hc]
    | cons b rest2 =>
      simp only [preprocess_args, preprocessGo, if_neg hD, if_neg hd, if_neg hc]
  · intro args h
    cases args with
    | nil => rfl
    | cons prog rest =>
      have hrest : ∀ t ∈ rest, strStarts t "+" = false :=
        fun t ht => h t (List.mem_cons_of_mem prog ht)
      simp [preprocess_args, preprocessGo_fixed rest hrest]

/-- Witness for C9 at a concrete vector: rewriting `+c 15` and
idempotence on a plain vector. -/
theorem preprocess_args_spec_witness :
    preprocess_args ["loof", "+c", "15", "-t"]
        = ["loof", "--cmd-width", "15", "-t"]
    ∧ preprocess_args (preprocess_args ["loof", "-p", "1", "-n"])
        = preprocess_args ["loof", "-p", "1", "-n"] := by
  constructor
  · have h := preprocess_args_spec.2.2.1 "loof" "15" ["-t"]
    simpa [preprocessGo] using h
  · exact preprocess_args_spec.2.2.2.2 ["loof", "-p", "1", "-n"] (by decide)

/-- **C8.** The columnar COMMAND column (`fit_str`): when the command
is longer than `cmd_width` the result is the prefix of length exactly
`cmd_width`; otherwise it is the command followed by enough spaces to
occupy exactly `cmd_width`.  (Lengths are in characters, which equal
bytes for the ASCII data the program formats.) -/
theorem fit_str_spec (s : String) (width : Nat) :
    (s.length > width →
      fit_str s width = ⟨s.data.take width⟩
      ∧ (fit_str s width).length = width)
  ∧ (s.length ≤ width →
      fit_str s width = ⟨s.data ++ List.replicate (width - s.length) ' '⟩
      ∧ (fit_str s width).length = width) := by
  have hdata : s.data.length = s.length := rfl
  constructor
  · intro h
    refine ⟨by simp [fit_str, h], ?_⟩
    simp only [fit_str, if_pos h]
    have h1 : (String.mk (s.data.take width)).length
        = (s.data.take width).length := rfl
    rw [h1, List.length_take]
    omega
  · intro h
    have hnot : ¬ s.length > width := by omega
    refine ⟨by simp [fit_str, hnot], ?_⟩
    simp only [fit_str, if_neg hnot]
    have h1 : (String.mk (s.data ++ List.replicate (width - s.length) ' ')).length
        = (s.data ++ List.replicate (width - s.length) ' ').length := rfl
    rw [h1, List.length_append, List.length_replicate]
    omega

/-- Witness for C8: truncation of an 15-char command to width 9 and
padding of a 2-char command to width 9. -/
theorem fit_str_spec_witness :
    fit_str "longcommandname" 9 = "longcomma"
    ∧ fit_str "sh" 9 = "sh       " := by
  constructor
  · have h := (fit_str_spec "longcommandname" 9).1 (by decide)
    rw [h.1]; decide
  · have h := (fit_str_spec "sh" 9).2 (by decide)
    rw [h.1]; decide

/-- **C5** (against the code).  In `-F` output with field set `g`, the
line tagged `g` carries the process's *pid*, not its pgid: for a
process with pid 100 and pgid 42 the emitted record is `["g100"]`,
which differs from the `["g42"]` the claim (and the spec) require.
The source's own comment on the `'g'` arm calls the value a "PGID
placeholder". -/
theorem field_g_line_carries_pid_not_pgid :
    print_field_output fmtFieldG procPid100Pgid42 = ["g100"]
    ∧ procPid100Pgid42.pgid = some 42
    ∧ print_field_output fmtFieldG procPid100Pgid42
        ≠ ["g" ++ Nat.repr 42] := by
  refine ⟨by decide, by decide, by decide⟩

/-- **C1** (against the code).  `run_once`'s `has_file_filters` test
omits the size predicate: with the size predicate as the only supplied
file-level filter, the descriptor list is *not* filtered through
`matches_file` and processes with no matching descriptor are *not*
dropped.  Concretely: `sizeOnlyConfig` activates `matches_file`'s own
file-level check (which rejects `sizelessFile`), yet the driver keeps
the process, descriptor and all, where the claimed behaviour would
have pruned the process entirely. -/
theorem size_only_filter_is_ignored_by_driver :
    hasFileFilters sizeOnlyConfig = false
    ∧ fileActive sizeOnlyConfig = true
    ∧ matches_file sizeOnlyConfig sizelessFile = false
    ∧ run_once_select sizeOnlyConfig [procOne] [(1, [sizelessFile])]
        = [{ procOne with openFiles := [sizelessFile] }]
    ∧ List.filter (matches_file sizeOnlyConfig) [sizelessFile] = [] := by
  refine ⟨by decide, by decide, by decide, by decide, by decide⟩

/-- **C2.** AND/OR composition: with no active filter of a level every
record passes; otherwise, in AND mode `matches_process` /
`matches_file` accept iff every active filter of that level accepts
(`all` over the active verdicts), and in OR mode iff at least one
active filter accepts (`any`). -/
theorem matches_and_or_composition (cfg : FilterConfig)
    (proc : ProcessInfo) (file : OpenFileInfo) :
    (matches_process cfg proc =
      if procActive cfg then
        (if cfg.andMode then (procResults cfg proc).all id
         else (procResults cfg proc).any id)
      else true)
  ∧ (matches_file cfg file =
      if fileActive cfg then
        (if cfg.andMode then (fileResults cfg file).all id
         else (fileResults cfg file).any id)
      else true) := by
  constructor
  · cases hp : cfg.pids <;> cases hg : cfg.pgids <;>
      cases hu : cfg.users <;> cases hcmd : cfg.commands <;>
      cases ha : cfg.andMode <;>
      simp [matches_process, procActive, procResults, hp, hg, hu, hcmd, ha,
        Bool.and_assoc, Bool.or_assoc]
  · cases hi : cfg.inet <;> cases ht : cfg.dirTree <;>
      cases hd : cfg.dir <;> cases hn : cfg.names <;>
      cases hs : cfg.sizeFilter <;> cases ha : cfg.andMode <;>
      simp [matches_file, fileActive, fileResults, hi, ht, hd, hn, hs, ha,
        Bool.and_assoc, Bool.or_assoc]

/-- The version block accepts iff a set version 4 forces `IPv4` and a
set version 6 forces `IPv6`. -/
theorem inetVersionOk_iff (ver : Option Nat) (ft : FileType) :
    inetVersionOk ver ft = true ↔
      ((ver = some 4 → ft = FileType.IPv4)
        ∧ (ver = some 6 → ft = FileType.IPv6)) := by
  cases ver with
  | none => simp [inetVersionOk]
  | some v =>
    by_cases h4 : v = 4
    · subst h4; simp [inetVersionOk]
    · by_cases h6 : v = 6
      · subst h6; simp [inetVersionOk]
      · simp [inetVersionOk, h4, h6, Option.some_inj]

/-- **C4.** A descriptor matches a parsed inet filter iff its file type
is one of IPv4, IPv6, SOCK, unix; a set ip-version of 4 (resp. 6)
forces type exactly IPv4 (resp. IPv6); a set protocol occurs
case-insensitively as a substring of the `node` field; a set port
occurs as the substring `:PORT` of the `name` field; and a set host
occurs as a substring of the `name` field. -/
theorem inet_matches_file_spec (filt : InetFilter) (file : OpenFileInfo) :
    filt.matchesFile file = true ↔
      (isNetworkType file.fileType = true
        ∧ (filt.ipVersion = some 4 → file.fileType = FileType.IPv4)
        ∧ (filt.ipVersion = some 6 → file.fileType = FileType.IPv6)
        ∧ (∀ proto, filt.protocol = some proto →
            strContains (strUpper file.node) (strUpper proto) = true)
        ∧ (∀ port, filt.port = some port →
            strContains file.name (":" ++ Nat.repr port) = true)
        ∧ (∀ host, filt.host = some host →
            strContains file.name host = true)) := by
  by_cases hnet : isNetworkType file.fileType = true
  · rw [InetFilter.matchesFile, if_neg (not_not_intro hnet)]
    rw [Bool.and_eq_true, Bool.and_eq_true, Bool.and_eq_true]
    rw [inetVersionOk_iff]
    constructor
    · rintro ⟨⟨⟨hver, hproto⟩, hport⟩, hhost⟩
      refine ⟨hnet, hver.1, hver.2, ?_, ?_, ?_⟩
      · intro proto hp; rw [hp] at hproto
        simpa [inetProtoOk] using hproto
      · intro port hp; rw [hp] at hport
        simpa [inetPortOk] using hport
      · intro host hh; rw [hh] at hhost
        simpa [inetHostOk] using hhost
    · rintro ⟨_, h4, h6, hproto, hport, hhost⟩
      refine ⟨⟨⟨⟨h4, h6⟩, ?_⟩, ?_⟩, ?_⟩
      · cases hp : filt.protocol with
        | none => simp [inetProtoOk]
        | some proto => rw [inetProtoOk]; exact hproto proto hp
      · cases hp : filt.port with
        | none => simp [inetPortOk]
        | some port => rw [inetPortOk]; exact hport port hp
      · cases hh : filt.host with
        | none => simp [inetHostOk]
        | some host => rw [inetHostOk]; exact hhost host hh
  · rw [InetFilter.matchesFile, if_pos hnet]
    simp [hnet]

/-- Witness for C4: a TCP port-80 filter accepts an established IPv4
connection descriptor. -/
theorem inet_matches_file_spec_witness :
    InetFilter.matchesFile ⟨some "TCP", none, some 80, none⟩
      ⟨FdType.Numbered 4 FdMode.ReadWrite, FileType.IPv4, "", none, "TCP",
        "127.0.0.1:80 -> 10.0.0.1:12345 (ESTABLISHED)",
        some FdMode.ReadWrite, none, none, none⟩ = true := by
  exact (inet_matches_file_spec ⟨some "TCP", none, some 80, none⟩
    ⟨FdType.Numbered 4 FdMode.ReadWrite, FileType.IPv4, "", none, "TCP",
      "127.0.0.1:80 -> 10.0.0.1:12345 (ESTABLISHED)",
      some FdMode.ReadWrite, none, none, none⟩).mpr (by
    refine ⟨by decide, by decide, by decide, ?_, ?_, ?_⟩
    · intro proto hp
      cases hp; decide
    · intro port hp
      cases hp; decide
    · intro host hh
      cases hh)

/-- The access mode `list_open_files` decodes for one fd entry. -/
def entryMode (e : FdEntry) : FdMode :=
  match e.flags with
  | some v => fd_mode_from_flags v
  | none => FdMode.Unknown

/-- Special entries keep the descriptor slot they were built for. -/
theorem open_file_from_path_fd (env : ProcFsEnv) (p : String) (t : FdType) :
    (open_file_from_path env p t).fd = t := by
  by_cases h : env.avoidStat <;> simp [open_file_from_path, h]

/-- A path-backed numbered record carries its slot and mode. -/
theorem open_file_from_fd_path_fd_mode (env : ProcFsEnv) (p : String)
    (n : Nat) (m : FdMode) :
    (open_file_from_fd_path env p n m).fd = FdType.Numbered n m
    ∧ (open_file_from_fd_path env p n m).mode = some m := by
  by_cases h : env.avoidStat <;>
    constructor <;> simp [open_file_from_fd_path, h]

/-- Every `mem` entry has slot `Mem`. -/
theorem memEntries_fd (env : ProcFsEnv) (maps : List (Option String))
    (seen : List String) (f : OpenFileInfo) (hf : f ∈ memEntries env maps seen) :
    f.fd = FdType.Mem := by
  induction maps generalizing seen with
  | nil => cases hf
  | cons hd rest ih =>
    cases hd with
    | none => exact ih seen hf
    | some p =>
      by_cases hseen : seen.contains p
      · rw [memEntries, if_pos hseen] at hf
        exact ih seen hf
      · rw [memEntries, if_neg hseen] at hf
        rcases List.mem_cons.mp hf with h | h
        · subst h; rfl
        · exact ih (p :: seen) h

/-- Every numbered-loop record carries its decoded slot and mode. -/
theorem fdRecord_fd_mode (env : ProcFsEnv) (e : FdEntry) :
    (fdRecord env e).fd = FdType.Numbered e.fd (entryMode e)
    ∧ (fdRecord env e).mode = some (entryMode e) := by
  cases e with
  | mk fd flags target =>
    cases target with
    | Path p =>
      simpa [fdRecord, entryMode] using
        open_file_from_fd_path_fd_mode env p fd (entryMode ⟨fd, flags, .Path p⟩)
    | Socket inode =>
      cases h : env.socketTable.lookup inode <;>
        simp [fdRecord, entryMode, h, socketHitRecord, socketMissRecord]
    | Net inode =>
      cases h : env.socketTable.lookup inode <;>
        simp [fdRecord, entryMode, h, socketHitRecord, socketMissRecord]
    | Pipe inode => simp [fdRecord, entryMode]
    | AnonInode desc => simp [fdRecord, entryMode]
    | MemFD nm => simp [fdRecord, entryMode]
    | Other nm inode => simp [fdRecord, entryMode]

/-- **C6.** Every descriptor record produced by `list_open_files` whose
slot is `Numbered(n, m)` has `mode = Some(m)`, with `m` one of `Read`,
`Write`, `ReadWrite`, `Unknown`. -/
theorem list_open_files_numbered_mode (env : ProcFsEnv) (f : OpenFileInfo)
    (n : Nat) (m : FdMode) (hf : f ∈ list_open_files env)
    (hfd : f.fd = FdType.Numbered n m) :
    f.mode = some m
    ∧ (m = FdMode.Read ∨ m = FdMode.Write ∨ m = FdMode.ReadWrite
        ∨ m = FdMode.Unknown) := by
  refine ⟨?_, by cases m <;> simp⟩
  rw [list_open_files] at hf
  simp only [List.mem_append] at hf
  rcases hf with ((((h | h) | h) | h) | h)
  · cases hc : env.cwd with
    | none => rw [hc] at h; cases h
    | some p =>
      rw [hc] at h
      rcases List.mem_singleton.mp h with rfl
      rw [open_file_from_path_fd] at hfd
      cases hfd
  · cases hc : env.root with
    | none => rw [hc] at h; cases h
    | some p =>
      rw [hc] at h
      rcases List.mem_singleton.mp h with rfl
      rw [open_file_from_path_fd] at hfd
      cases hfd
  · cases hc : env.exe with
    | none => rw [hc] at h; cases h
    | some p =>
      rw [hc] at h
      rcases List.mem_singleton.mp h with rfl
      rw [open_file_from_path_fd] at hfd
      cases hfd
  · rw [memEntries_fd env env.maps [] f h] at hfd
    cases hfd
  · cases hc : env.fds with
    | none => rw [hc] at h; cases h
    | some fds =>
      rw [hc] at h
      rcases List.mem_map.mp h with ⟨e, _, rfl⟩
      rcases fdRecord_fd_mode env e with ⟨hfd2, hmode⟩
      rw [hfd2] at hfd
      cases hfd
      exact hmode

/-- Witness for C6: a concrete environment with one pipe descriptor in
write-only mode (`flags = 1`). -/
theorem list_open_files_numbered_mode_witness :
    ∃ f ∈ list_open_files
        ⟨some "/home", none, none, [], [],
          some [⟨5, some 1, FDTarget.Pipe 88⟩], [], [], [], false, false⟩,
      f.fd = FdType.Numbered 5 FdMode.Write ∧ f.mode = some FdMode.Write := by
  refine ⟨fdRecord
    ⟨some "/home", none, none, [], [],
      some [⟨5, some 1, FDTarget.Pipe 88⟩], [], [], [], false, false⟩
    ⟨5, some 1, FDTarget.Pipe 88⟩, ?_, ?_, ?_⟩
  · simp [list_open_files]
  · rfl
  · exact (list_open_files_numbered_mode
      ⟨some "/home", none, none, [], [],
        some [⟨5, some 1, FDTarget.Pipe 88⟩], [], [], [], false, false⟩
      (fdRecord
        ⟨some "/home", none, none, [], [],
          some [⟨5, some 1, FDTarget.Pipe 88⟩], [], [], [], false, false⟩
        ⟨5, some 1, FDTarget.Pipe 88⟩)
      5 FdMode.Write (by simp [list_open_files]) (by rfl)).1

/-- `takeWhile`/`dropWhile` split a list at the first failing element
(the Rust `find` + `split_at` idiom used by the parsers). -/
theorem takeWhile_dropWhile_split {α : Type} (p : α → Bool) (l1 : List α)
    (x : α) (l2 : List α) (h1 : ∀ a ∈ l1, p a = true) (hx : p x = false) :
    (l1 ++ x :: l2).takeWhile p = l1
    ∧ (l1 ++ x :: l2).dropWhile p = x :: l2 := by
  induction l1 with
  | nil => simp [List.takeWhile, List.dropWhile, hx]
  | cons a t ih =>
    have ha : p a = true := h1 a (List.mem_cons_self a t)
    have ht : ∀ b ∈ t, p b = true := fun b hb => h1 b (List.mem_cons_of_mem a hb)
    rcases ih ht with ⟨h2, h3⟩
    constructor
    · simpa [List.takeWhile, ha] using h2
    · simpa [List.dropWhile, ha] using h3

/-- `takeWhile`/`dropWhile` consume a list all of whose elements
satisfy the predicate. -/
theorem takeWhile_dropWhile_all {α : Type} (p : α → Bool) (l : List α)
    (h : ∀ a ∈ l, p a = true) :
    l.takeWhile p = l ∧ l.dropWhile p = [] := by
  induction l with
  | nil => simp
  | cons a t ih =>
    have ha : p a = true := h a (List.mem_cons_self a t)
    have ht : ∀ b ∈ t, p b = true := fun b hb => h b (List.mem_cons_of_mem a hb)
    rcases ih ht with ⟨h2, h3⟩
    exact ⟨by simp [List.takeWhile, ha, h2], by simp [List.dropWhile, ha, h3]⟩

/-- A successful bounded parse is within the bound. -/
theorem parseUnsigned_lt (bound : Nat) (l : List Char) (v : Nat)
    (h : parseUnsigned bound l = some v) : v < bound := by
  rw [parseUnsigned] at h
  split at h
  · cases h
  · split at h
    · split at h
      · rename_i hlt
        cases h
        exact hlt
      · cases h
    · cases h

/-- The version, protocol and host stages never set the port. -/
theorem inet_stages_preserve_port (filt : InetFilter) (r : List Char) :
    (inetVersionStage filt r).1.port = filt.port
    ∧ (inetProtoStage filt r).1.port = filt.port
    ∧ (inetHostStage filt r).1.port = filt.port := by
  refine ⟨?_, ?_, ?_⟩
  · cases r with
    | nil => rfl
    | cons c rest =>
      rw [inetVersionStage]
      split <;> rfl
  · rw [inetProtoStage]
    dsimp only
    split <;> rfl
  · cases r with
    | nil => rfl
    | cons c rest =>
      rw [inetHostStage]
      dsimp only
      split
      · split <;> rfl
      · rfl

/-- The port stage only installs a port that `parseU16` accepted. -/
theorem inetPortStage_port (filt : InetFilter) (r : List Char) (p : Nat)
    (h : (inetPortStage filt r).port = some p) :
    filt.port = some p ∨ ∃ l, parseU16 l = some p := by
  cases r with
  | nil => exact Or.inl h
  | cons c rest =>
    rw [inetPortStage] at h
    split at h
    · cases hp : parseU16 rest with
      | none => rw [hp] at h; exact Or.inl h
      | some q =>
        rw [hp] at h
        exact Or.inr ⟨rest, by rw [hp]; simpa using h⟩
    · exact Or.inl h

/-- **C10.** `parse_inet_filter` is total — it returns an `InetFilter`
for every input, never a surfaced parse error — and a `:PORT` suffix
that does not parse as a `u16` (non-numeric, or above 65535) yields
`port = None`: every port it ever sets is a valid `u16`, and a
protocol spec with an unparsable port yields exactly the
protocol-only filter. -/
theorem parse_inet_filter_total_port :
    (∀ (s : String) (p : Nat), (parse_inet_filter s).port = some p → p < 65536)
  ∧ (∀ (proto rest : List Char), proto ≠ [] →
      (∀ c ∈ proto, ¬ (c = '@' ∨ c = ':')) →
      proto.head? ≠ some '4' → proto.head? ≠ some '6' →
      parseU16 rest = none →
      parse_inet_filter ⟨proto ++ ':' :: rest⟩
        = ⟨some (strUpper ⟨proto⟩), none, none, none⟩) := by
  constructor
  · intro s p h
    rw [parse_inet_filter] at h
    split at h
    · cases h
    · rcases inetPortStage_port _ _ _ h with hnone | ⟨l, hl⟩
      · rw [(inet_stages_preserve_port _ _).2.2] at hnone
        rw [(inet_stages_preserve_port _ _).2.1] at hnone
        rw [(inet_stages_preserve_port _ _).1] at hnone
        cases hnone
      · exact parseUnsigned_lt _ _ _ hl
  · intro proto rest hne hpc h4 h6 hrest
    cases proto with
    | nil => exact absurd rfl hne
    | cons c protoTl =>
      have hstr : (String.mk ((c :: protoTl) ++ ':' :: rest)).data
          = (c :: protoTl) ++ ':' :: rest := rfl
      rw [parse_inet_filter]
      rw [hstr]
      rw [if_neg (by simp)]
      dsimp only
      have hc4 : ¬ (c = '4' ∨ c = '6') := by
        rintro (rfl | rfl)
        · exact h4 rfl
        · exact h6 rfl
      have hver : inetVersionStage ⟨none, none, none, none⟩
          ((c :: protoTl) ++ ':' :: rest)
          = (⟨none, none, none, none⟩, (c :: protoTl) ++ ':' :: rest) := by
        show inetVersionStage ⟨none, none, none, none⟩
          (c :: (protoTl ++ ':' :: rest)) = _
        rw [inetVersionStage, if_neg hc4]
        rfl
      rw [hver]
      dsimp only
      have hsplit := takeWhile_dropWhile_split
        (fun c => decide ¬ (c = '@' ∨ c = ':')) (c :: protoTl) ':' rest
        (fun a ha => by simpa using hpc a ha) (by simp)
      have hproto : inetProtoStage ⟨none, none, none, none⟩
          ((c :: protoTl) ++ ':' :: rest)
          = (⟨some (strUpper ⟨c :: protoTl⟩), none, none, none⟩, ':' :: rest) := by
        rw [inetProtoStage]
        dsimp only
        rw [hsplit.1, hsplit.2]
        rw [if_pos (by simp)]
      rw [hproto]
      dsimp only
      have hhost : inetHostStage
          ⟨some (strUpper ⟨c :: protoTl⟩), none, none, none⟩ (':' :: rest)
          = (⟨some (strUpper ⟨c :: protoTl⟩), none, none, none⟩,
             ':' :: rest) := by
        rw [inetHostStage, if_neg (by decide)]
      rw [hhost]
      dsimp only
      rw [inetPortStage, if_pos rfl, hrest]

/-- Witness for C10: `TCP:99999` — the port 99999 overflows `u16`, so
the parse yields the protocol-only filter with `port = None`. -/
theorem parse_inet_filter_total_port_witness :
    parse_inet_filter "TCP:99999" = ⟨some "TCP", none, none, none⟩ := by
  have h := parse_inet_filter_total_port.2 ['T', 'C', 'P']
    ['9', '9', '9', '9', '9'] (by decide) (by decide) (by decide) (by decide)
    (by decide)
  simpa using h

/-- `dropWhile` skips a satisfying block. -/
theorem dropWhile_all_append {α : Type} (p : α → Bool) (w l : List α)
    (hw : ∀ a ∈ w, p a = true) : (w ++ l).dropWhile p = l.dropWhile p := by
  induction w with
  | nil => rfl
  | cons a t ih =>
    have ha : p a = true := hw a (List.mem_cons_self a t)
    have ht : ∀ b ∈ t, p b = true := fun b hb => hw b (List.mem_cons_of_mem a hb)
    simp [List.dropWhile, ha, ih ht]

/-- `dropWhile` is the identity when no element satisfies. -/
theorem dropWhile_eq_self_of_neg {α : Type} (p : α → Bool) (l : List α)
    (h : ∀ a ∈ l, p a = false) : l.dropWhile p = l := by
  cases l with
  | nil => rfl
  | cons a t => simp [List.dropWhile, h a (List.mem_cons_self a t)]

/-- Trailing whitespace is dropped through an all-whitespace block. -/
theorem dropTrailingWs_append_ws (l w : List Char)
    (hw : ∀ c ∈ w, rustIsWhitespace c = true) :
    dropTrailingWs (l ++ w) = dropTrailingWs l := by
  rw [dropTrailingWs, dropTrailingWs, List.reverse_append]
  rw [dropWhile_all_append _ w.reverse l.reverse
    (fun a ha => hw a (List.mem_reverse.mp ha))]

/-- `dropTrailingWs` keeps a list whose last block is non-whitespace. -/
theorem dropTrailingWs_of_tail (l1 l2 : List Char) (h2ne : l2 ≠ [])
    (h2 : ∀ c ∈ l2, rustIsWhitespace c = false) :
    dropTrailingWs (l1 ++ l2) = l1 ++ l2 := by
  obtain ⟨y, ys, hy⟩ := List.exists_cons_of_ne_nil
    (by simpa using h2ne : l2.reverse ≠ [])
  have hymem : y ∈ l2 := by
    have : y ∈ l2.reverse := by rw [hy]; exact List.mem_cons_self y ys
    exact List.mem_reverse.mp this
  have hyws : ¬ (rustIsWhitespace y = true) := by simp [h2 y hymem]
  rw [dropTrailingWs, List.reverse_append]
  have hkeep : List.dropWhile rustIsWhitespace (l2.reverse ++ l1.reverse)
      = l2.reverse ++ l1.reverse := by
    rw [hy]
    show List.dropWhile rustIsWhitespace (y :: (ys ++ l1.reverse)) = _
    rw [List.dropWhile_cons_of_neg hyws]
    rfl
  rw [hkeep, ← List.reverse_append, List.reverse_reverse]

/-- `trimChars` strips exactly the surrounding whitespace from a body
that starts with a non-whitespace character and, via the decomposition
`x :: mid = l1 ++ l2`, ends with a non-whitespace block `l2`. -/
theorem trimChars_sandwich (w1 w3 : List Char) (x : Char)
    (mid l1 l2 : List Char) (hbody : x :: mid = l1 ++ l2)
    (hw1 : ∀ c ∈ w1, rustIsWhitespace c = true)
    (hw3 : ∀ c ∈ w3, rustIsWhitespace c = true)
    (hx : rustIsWhitespace x = false)
    (h2ne : l2 ≠ []) (h2 : ∀ c ∈ l2, rustIsWhitespace c = false) :
    trimChars (w1 ++ (x :: mid) ++ w3) = x :: mid := by
  rw [trimChars, List.append_assoc]
  rw [dropWhile_all_append _ w1 _ hw1]
  rw [show (x :: mid) ++ w3 = x :: (mid ++ w3) from rfl]
  rw [List.dropWhile_cons_of_neg (by simp [hx])]
  rw [show x :: (mid ++ w3) = (x :: mid) ++ w3 from rfl]
  rw [dropTrailingWs_append_ws _ w3 hw3]
  rw [hbody]
  exact dropTrailingWs_of_tail l1 l2 h2ne h2

/-- `parseU64` succeeds on a non-empty all-digit numeral below `2^64`
and returns its value. -/
theorem parseU64_digits (ds : List Char) (hne : ds ≠ [])
    (hdig : ∀ c ∈ ds, c.isDigit = true) (hb : digitsVal ds < 2 ^ 64) :
    parseU64 ds = some (digitsVal ds) := by
  have hplus : stripPlus ds = ds := by
    cases ds with
    | nil => rfl
    | cons d dt =>
      have hd : d.isDigit = true := hdig d (List.mem_cons_self d dt)
      have : d ≠ '+' := by
        intro h; rw [h] at hd; exact absurd hd (by decide)
      simp [stripPlus, this]
  rw [parseU64, parseUnsigned]
  rw [hplus, if_neg hne,
    if_pos (List.all_eq_true.mpr fun c hc => hdig c hc), if_pos hb]

/-- An ASCII digit is not whitespace (Rust `char::is_whitespace`):
its code point 48..57 misses every `White_Space` code point. -/
theorem digit_not_ws (c : Char) (h : c.isDigit = true) :
    rustIsWhitespace c = false := by
  rw [Char.isDigit, Bool.and_eq_true] at h
  rcases h with ⟨h1, h2⟩
  have h09 : c ≠ ('\t') := by rintro rfl; exact absurd h1 (by decide)
  have h10 : c ≠ ('\n') := by rintro rfl; exact absurd h1 (by decide)
  have h11 : c ≠ ('\x0B') := by rintro rfl; exact absurd h1 (by decide)
  have h12 : c ≠ ('\x0C') := by rintro rfl; exact absurd h1 (by decide)
  have h13 : c ≠ ('\r') := by rintro rfl; exact absurd h1 (by decide)
  have h32 : c ≠ (' ') := by rintro rfl; exact absurd h1 (by decide)
  have h0085 : c ≠ ('\u0085') := by rintro rfl; exact absurd h2 (by decide)
  have h00A0 : c ≠ ('\u00A0') := by rintro rfl; exact absurd h2 (by decide)
  have h1680 : c ≠ ('\u1680') := by rintro rfl; exact absurd h2 (by decide)
  have h2000 : c ≠ ('\u2000') := by rintro rfl; exact absurd h2 (by decide)
  have h2001 : c ≠ ('\u2001') := by rintro rfl; exact absurd h2 (by decide)
  have h2002 : c ≠ ('\u2002') := by rintro rfl; exact absurd h2 (by decide)
  have h2003 : c ≠ ('\u2003') := by rintro rfl; exact absurd h2 (by decide)
  have h2004 : c ≠ ('\u2004') := by rintro rfl; exact absurd h2 (by decide)
  have h2005 : c ≠ ('\u2005') := by rintro rfl; exact absurd h2 (by decide)
  have h2006 : c ≠ ('\u2006') := by rintro rfl; exact absurd h2 (by decide)
  have h2007 : c ≠ ('\u2007') := by rintro rfl; exact absurd h2 (by decide)
  have h2008 : c ≠ ('\u2008') := by rintro rfl; exact absurd h2 (by decide)
  have h2009 : c ≠ ('\u2009') := by rintro rfl; exact absurd h2 (by decide)
  have h200A : c ≠ ('\u200A') := by rintro rfl; exact absurd h2 (by decide)
  have h2028 : c ≠ ('\u2028') := by rintro rfl; exact absurd h2 (by decide)
  have h2029 : c ≠ ('\u2029') := by rintro rfl; exact absurd h2 (by decide)
  have h202F : c ≠ ('\u202F') := by rintro rfl; exact absurd h2 (by decide)
  have h205F : c ≠ ('\u205F') := by rintro rfl; exact absurd h2 (by decide)
  have h3000 : c ≠ ('\u3000') := by rintro rfl; exact absurd h2 (by decide)
  rw [rustIsWhitespace]
  simp [h09, h10, h11, h12, h13, h32, h0085, h00A0, h1680, h2000, h2001, h2002, h2003, h2004, h2005, h2006, h2007, h2008, h2009, h200A, h2028, h2029, h202F, h205F, h3000]

/-- The size operator the sign prefix denotes. -/
def signOp (sgn : List Char) : SizeOp :=
  if sgn = ['+'] then SizeOp.GreaterThan
  else if sgn = ['-'] then SizeOp.LessThan
  else SizeOp.Exact

/-- **C7, counterexample.**  The claim's "accepts exactly the grammar
`[+|-]N[K|KB|M|MB|G|GB]`" and "the byte count is N times the
multiplier" both fail on the code: `"+ 5"` (whitespace between the
sign and the number, outside the grammar) is accepted, and the
in-grammar spec `"18446744073709551615G"` is accepted with a byte
count wrapped modulo `2^64` rather than `N * 1073741824`. -/
theorem parse_size_filter_claim_counterexample :
    parse_size_filter "+ 5" = some ⟨SizeOp.GreaterThan, 5⟩
    ∧ parse_size_filter "18446744073709551615G"
        = some ⟨SizeOp.Exact, 18446744072635809792⟩
    ∧ (18446744072635809792 : Nat)
        ≠ 18446744073709551615 * 1073741824 := by
  refine ⟨by decide, by decide, by decide⟩

/-- **C7, amended.**  `parse_size_filter` accepts the grammar
`[+|-]N[K|KB|M|MB|G|GB]` (suffix case-insensitive) with optional
whitespace around the spec and between the sign and the number, where
the numeral `N` must fit in a `u64`; `+` yields greater-than, `-`
less-than, no sign exact; the byte count is `N` times the suffix
multiplier (1, 1024, 1048576 or 1073741824), reduced modulo `2^64`;
any other (whitespace-free) suffix rejects the spec. -/
theorem parse_size_filter_grammar (w1 w2 w3 sgn ds suf : List Char)
    (hw1 : ∀ c ∈ w1, rustIsWhitespace c = true)
    (hw2 : ∀ c ∈ w2, rustIsWhitespace c = true)
    (hw3 : ∀ c ∈ w3, rustIsWhitespace c = true)
    (hsgn : sgn = [] ∨ sgn = ['+'] ∨ sgn = ['-'])
    (hds : ds ≠ []) (hdig : ∀ c ∈ ds, c.isDigit = true)
    (hbound : digitsVal ds < 2 ^ 64)
    (hsuf : ∀ c ∈ suf, c.isDigit = false ∧ rustIsWhitespace c = false) :
    parse_size_filter ⟨w1 ++ sgn ++ w2 ++ ds ++ suf ++ w3⟩
      = match suffixMultiplier (suf.map Char.toUpper) with
        | some mult => some ⟨signOp sgn, (digitsVal ds * mult) % 2 ^ 64⟩
        | none => none := by
  obtain ⟨d, dt, rfl⟩ : ∃ d dt, ds = d :: dt := by
    cases ds with
    | nil => exact absurd rfl hds
    | cons d dt => exact ⟨d, dt, rfl⟩
  have hd : d.isDigit = true := hdig d (List.mem_cons_self d dt)
  have hdp : d ≠ '+' := by
    rintro rfl; exact absurd hd (by decide)
  have hdm : d ≠ '-' := by
    rintro rfl; exact absurd hd (by decide)
  have hdws : rustIsWhitespace d = false := digit_not_ws d hd
  -- the trailing non-whitespace block of `ds ++ suf`
  obtain ⟨l1, l2, hdecomp, h2ne, h2⟩ :
      ∃ l1 l2, (d :: dt) ++ suf = l1 ++ l2 ∧ l2 ≠ []
        ∧ (∀ c ∈ l2, rustIsWhitespace c = false) := by
    cases suf with
    | nil =>
      refine ⟨[], d :: dt, by simp, by simp, ?_⟩
      intro c hc
      exact digit_not_ws c (hdig c hc)
    | cons y ys =>
      exact ⟨d :: dt, y :: ys, rfl, by simp,
        fun c hc => (hsuf c hc).2⟩
  -- the inner trim of `ds ++ suf` (optionally behind sign whitespace)
  have hinner : ∀ w : List Char, (∀ c ∈ w, rustIsWhitespace c = true) →
      trimChars (w ++ ((d :: dt) ++ suf)) = (d :: dt) ++ suf := by
    intro w hw
    have := trimChars_sandwich w [] d (dt ++ suf) l1 l2
      (by simpa using hdecomp) hw (by simp) hdws h2ne h2
    simpa using this
  -- numeral/suffix split
  have hsplit : ((d :: dt) ++ suf).takeWhile Char.isDigit = d :: dt
      ∧ ((d :: dt) ++ suf).dropWhile Char.isDigit = suf := by
    cases suf with
    | nil =>
      have := takeWhile_dropWhile_all Char.isDigit (d :: dt) hdig
      simpa using this
    | cons y ys =>
      exact takeWhile_dropWhile_split Char.isDigit (d :: dt) y ys hdig
        (hsuf y (List.mem_cons_self y ys)).1
  have hnum : parseU64 (d :: dt) = some (digitsVal (d :: dt)) :=
    parseU64_digits (d :: dt) (by simp) hdig hbound
  -- the common tail of the computation, after the sign has been split
  have hafter : ∀ (op : SizeOp) (w : List Char),
      (∀ c ∈ w, rustIsWhitespace c = true) →
      ((let rest := trimChars (w ++ ((d :: dt) ++ suf))
        let numStr := rest.takeWhile Char.isDigit
        let suffix := rest.dropWhile Char.isDigit
        match parseU64 numStr with
        | none => none
        | some base =>
          match suffixMultiplier (suffix.map Char.toUpper) with
          | none => none
          | some mult => some ⟨op, (base * mult) % 2 ^ 64⟩) :
        Option SizeFilter)
      = match suffixMultiplier (suf.map Char.toUpper) with
        | some mult => some ⟨op, (digitsVal (d :: dt) * mult) % 2 ^ 64⟩
        | none => none := by
    intro op w hw
    rw [hinner w hw]
    dsimp only
    rw [hsplit.1, hsplit.2, hnum]
    cases suffixMultiplier (suf.map Char.toUpper) <;> rfl
  rcases hsgn with rfl | rfl | rfl
  · -- no sign: the leading whitespace `w1 ++ w2` is absorbed by trim
    have houter : trimChars (w1 ++ [] ++ w2 ++ (d :: dt) ++ suf ++ w3)
        = (d :: dt) ++ suf := by
      have h := trimChars_sandwich (w1 ++ w2) w3 d (dt ++ suf) l1 l2
        (by simpa using hdecomp)
        (by
          intro c hc
          rcases List.mem_append.mp hc with hc1 | hc2
          · exact hw1 c hc1
          · exact hw2 c hc2)
        hw3 hdws h2ne h2
      have hshape : w1 ++ [] ++ w2 ++ (d :: dt) ++ suf ++ w3
          = (w1 ++ w2) ++ (d :: (dt ++ suf)) ++ w3 := by
        simp [List.append_assoc]
      rw [hshape]
      simpa using h
    rw [show parse_size_filter ⟨w1 ++ [] ++ w2 ++ (d :: dt) ++ suf ++ w3⟩
        = parseSizeCore (w1 ++ [] ++ w2 ++ (d :: dt) ++ suf ++ w3) from rfl]
    rw [parseSizeCore, houter]
    show parseSizeAfterTrim (d :: (dt ++ suf)) = _
    rw [parseSizeAfterTrim]
    rw [if_neg hdp, if_neg hdm]
    have h := hafter SizeOp.Exact [] (by simp)
    simpa [signOp] using h
  · -- leading '+': inner whitespace `w2` is absorbed by the inner trim
    have houter : trimChars (w1 ++ ['+'] ++ w2 ++ (d :: dt) ++ suf ++ w3)
        = '+' :: (w2 ++ ((d :: dt) ++ suf)) := by
      have h := trimChars_sandwich w1 w3 '+' (w2 ++ ((d :: dt) ++ suf))
        (('+' :: w2) ++ l1) l2
        (by rw [show ('+' :: w2) ++ l1 ++ l2 = '+' :: (w2 ++ (l1 ++ l2))
              from by simp [List.append_assoc]]
            rw [← hdecomp])
        hw1 hw3 (by decide) h2ne h2
      have hshape : w1 ++ ['+'] ++ w2 ++ (d :: dt) ++ suf ++ w3
          = w1 ++ ('+' :: (w2 ++ ((d :: dt) ++ suf))) ++ w3 := by
        simp [List.append_assoc]
      rw [hshape]
      exact h
    rw [show parse_size_filter ⟨w1 ++ ['+'] ++ w2 ++ (d :: dt) ++ suf ++ w3⟩
        = parseSizeCore (w1 ++ ['+'] ++ w2 ++ (d :: dt) ++ suf ++ w3) from rfl]
    rw [parseSizeCore, houter]
    rw [parseSizeAfterTrim]
    rw [if_pos rfl]
    have h := hafter SizeOp.GreaterThan w2 hw2
    simpa [signOp] using h
  · -- leading '-'
    have houter : trimChars (w1 ++ ['-'] ++ w2 ++ (d :: dt) ++ suf ++ w3)
        = '-' :: (w2 ++ ((d :: dt) ++ suf)) := by
      have h := trimChars_sandwich w1 w3 '-' (w2 ++ ((d :: dt) ++ suf))
        (('-' :: w2) ++ l1) l2
        (by rw [show ('-' :: w2) ++ l1 ++ l2 = '-' :: (w2 ++ (l1 ++ l2))
              from by simp [List.append_assoc]]
            rw [← hdecomp])
        hw1 hw3 (by decide) h2ne h2
      have hshape : w1 ++ ['-'] ++ w2 ++ (d :: dt) ++ suf ++ w3
          = w1 ++ ('-' :: (w2 ++ ((d :: dt) ++ suf))) ++ w3 := by
        simp [List.append_assoc]
      rw [hshape]
      exact h
    rw [show parse_size_filter ⟨w1 ++ ['-'] ++ w2 ++ (d :: dt) ++ suf ++ w3⟩
        = parseSizeCore (w1 ++ ['-'] ++ w2 ++ (d :: dt) ++ suf ++ w3) from rfl]
    rw [parseSizeCore, houter]
    rw [parseSizeAfterTrim]
    rw [if_neg (by decide), if_pos rfl]
    have h := hafter SizeOp.LessThan w2 hw2
    simpa [signOp] using h

/-- Witness for C7 (amended): the spec's own round-trip example,
`"+10M"` parses to greater-than 10485760 bytes. -/
theorem parse_size_filter_grammar_witness :
    parse_size_filter "+10M" = some ⟨SizeOp.GreaterThan, 10485760⟩ := by
  have h := parse_size_filter_grammar [] [] [] ['+'] ['1', '0'] ['M']
    (by simp) (by simp) (by simp) (Or.inr (Or.inl rfl)) (by simp)
    (by decide) (by decide) (by decide)
  exact h.trans (by decide)

end Loof
